import Mathlib

/-!
Verification development for the miradord watchtower core.

The definitions below are a shallow embedding of `src/main.rs` and
`src/poller.rs`.  Machine integers (`i32` heights, `u64` confirmation
counts) are modelled as `Int` / `Nat`; wherever the source performs a
checked conversion or checked arithmetic followed by `expect`, or an
`assert!`, the embedding checks the same bound explicitly and produces a
`panicked` outcome carrying the source's panic message.  The external
collaborators (the sqlite vault store, the bitcoind RPC interface, the
`revault_tx` transaction builders and the policy plugins) are not under
`src/`; their behaviour is supplied through explicit environment records
whose contracts follow the specification (section 4.3 to 4.5 and 6), and
log lines / broadcasts are recorded as an explicit event trace.
-/

namespace Miradord

/-- Largest value of a Rust `i32`. -/
def I32_MAX : Int := 2147483647

/-- Smallest value of a Rust `i32`. -/
def I32_MIN : Int := -2147483648

/-- Embedding of `poller.rs` constant `REORG_WATCH_LIMIT : i32 = 288`. -/
def REORG_WATCH_LIMIT : Int := 288

/-- A bitcoin outpoint (txid, vout), abstracted. -/
abbrev Outpoint := Nat × Nat

/-- Embedding of `bitcoind::interface::ChainTip`: the node tip as a
(height, hash) pair.  Hashes are abstracted as naturals. -/
structure ChainTip where
  height : Int
  hash : Nat
deriving DecidableEq, Repr

/-- Result of a `gettxout`-style UTXO-set lookup: confirmation count
(a `u64`, hence a `Nat`) and the hash of the best block at the time of
the query. -/
structure UtxoInfo where
  confirmations : Nat
  bestblock : Nat
deriving DecidableEq, Repr

/-- Vault lifecycle states persisted by the store (spec section 3;
`Forgotten` is realised by deletion and `Canceling` by
`ShouldCancel` with no `revoc_height`). -/
inductive VaultStatus where
  | Delegated
  | ShouldNotCancel
  | ShouldCancel
  | RevocConfirmed
deriving DecidableEq, Repr

/-- A stored cancel signature: a (pubkey, signature) pair, abstracted. -/
structure Sig where
  pubkey : Nat
  sigdata : Nat
deriving DecidableEq, Repr

/-- Embedding of `database::schema::DbVault`: one watched vault record. -/
structure DbVault where
  id : Nat
  deposit_outpoint : Outpoint
  amount : Nat
  derivation_index : Nat
  status : VaultStatus
  unvault_height : Option Int
  revoc_height : Option Int
deriving DecidableEq, Repr

/-- The persistent store: vault records, cancel signatures keyed by
vault id, and the singleton instance record holding the last fully
processed tip. -/
structure DbState where
  vaults : List DbVault
  cancel_sigs : List (Nat × Sig)
  tip_blockheight : Int
  tip_blockhash : Nat
deriving DecidableEq, Repr

/-- Modelled from the spec: fetch the "canceling" vaults, that is
states `ShouldCancel` (which subsumes `Canceling`) or
`RevocConfirmed` (spec section 4.4); the deciding branch logic lives
in `poller.rs`. -/
def db_canceling_vaults (db : DbState) : List DbVault :=
  db.vaults.filter (fun v =>
    v.status == VaultStatus.ShouldCancel || v.status == VaultStatus.RevocConfirmed)

/-- Modelled from the spec: fetch the delegated vaults (state
`Delegated`, or `ShouldNotCancel` with no `unvault_height` yet,
spec section 4.4). -/
def db_delegated_vaults (db : DbState) : List DbVault :=
  db.vaults.filter (fun v =>
    v.status == VaultStatus.Delegated ||
      (v.status == VaultStatus.ShouldNotCancel && v.unvault_height == none))

/-- Modelled from the spec: fetch a single vault by deposit outpoint
(`db_vault` in the source imports). -/
def db_vault_find (db : DbState) (op : Outpoint) : Option DbVault :=
  db.vaults.find? (fun v => v.deposit_outpoint == op)

/-- Modelled from the spec: fetch the stored cancel signatures of one
vault. -/
def db_cancel_signatures (db : DbState) (vid : Nat) : List Sig :=
  (db.cancel_sigs.filter (fun p => p.1 == vid)).map (fun p => p.2)

/-- Modelled from the spec: delete a vault record. -/
def db_del_vault (db : DbState) (vid : Nat) : DbState :=
  { db with vaults := db.vaults.filter (fun v => v.id != vid) }

/-- Modelled from the spec: record `revoc_height` for a vault, moving
it to `RevocConfirmed`. -/
def db_revoc_confirmed (db : DbState) (vid : Nat) (h : Int) : DbState :=
  { db with vaults := db.vaults.map (fun v =>
      if v.id == vid then
        { v with status := VaultStatus.RevocConfirmed, revoc_height := some h }
      else v) }

/-- Modelled from the spec: mark a vault `ShouldNotCancel` at the given
`unvault_height` (first observation of a confirmed unvault UTXO). -/
def db_should_not_cancel_vault (db : DbState) (vid : Nat) (h : Int) : DbState :=
  { db with vaults := db.vaults.map (fun v =>
      if v.id == vid then
        { v with status := VaultStatus.ShouldNotCancel, unvault_height := some h }
      else v) }

/-- Modelled from the spec: mark a vault `ShouldCancel` at the given
`unvault_height` (plugin verdict). -/
def db_should_cancel_vault (db : DbState) (vid : Nat) (h : Int) : DbState :=
  { db with vaults := db.vaults.map (fun v =>
      if v.id == vid then
        { v with status := VaultStatus.ShouldCancel, unvault_height := some h }
      else v) }

/-- Modelled from the spec: atomically advance the stored tip. -/
def db_update_tip (db : DbState) (h : Int) (hash : Nat) : DbState :=
  { db with tip_blockheight := h, tip_blockhash := hash }

/-- Fault-injection environment for the store: each store operation
carries a tag, and the operation returns a `DatabaseError` exactly when
its tag is listed (every store operation is its own transaction and may
fail independently). -/
structure StoreEnv where
  failures : List String
deriving DecidableEq, Repr

/-- Whether the store operation tagged `tag` fails under this
environment. -/
def StoreEnv.fails (se : StoreEnv) (tag : String) : Bool :=
  se.failures.contains tag

/-- The store environment in which every operation succeeds. -/
def cleanStore : StoreEnv := ⟨[]⟩

/-- Model of a derived `UnvaultTransaction` together with its
deterministic consequences: the outpoint of the unvault output
(`revault_unvault_txin(..).outpoint()`), the outpoint of the deposit
output of the Cancel transaction built from it
(`cancel_tx.deposit_txin(..).outpoint()`), and the Cancel txid. -/
structure UnvaultTxM where
  unvault_outpoint : Outpoint
  cancel_outpoint : Outpoint
  cancel_txid : Nat
deriving DecidableEq, Repr

/-- Environment abstracting the `revault_tx` library: `unvault_tx`
derivation (`none` models a `TransactionCreationError`, e.g. dust),
per-signature `add_cancel_sig` success, `finalize` success as a
function of the signatures actually added, the descriptor's CSV value
(a `u32`, given as a nonnegative `Int`), and whether a broadcast of a
given txid is accepted by the node. -/
structure TxEnv where
  unvault_tx : DbVault → Option UnvaultTxM
  add_sig_ok : Sig → Bool
  finalize_ok : List Sig → Bool
  csv_value : Int
  broadcast_ok : Nat → Bool

/-- Environment abstracting the bitcoind chain view (spec section 4.3):
UTXO-set lookup, current tip, and block hash by height. -/
structure ChainEnv where
  utxoinfo : Outpoint → Option UtxoInfo
  chain_tip : ChainTip
  block_hash : Int → Nat

/-- Observable events emitted by the poller: log lines (identified by a
short stable tag) and transaction broadcast attempts. -/
inductive Event where
  | logError (tag : String)
  | logInfo (tag : String)
  | logDebug (tag : String)
  | logTrace (tag : String)
  | broadcast (txid : Nat)
deriving DecidableEq, Repr

/-- Embedding of `PollerError`. -/
inductive PollerError where
  | Database (tag : String)
  | Bitcoind (tag : String)
deriving DecidableEq, Repr

/-- Outcome of running a poller function: normal return, a propagated
error (Rust `Err` through `?`), or a process-aborting panic
(`expect` / `assert!` / explicit `panic!`). -/
inductive Outcome (α : Type) where
  | ok (a : α)
  | err (e : PollerError)
  | panicked (msg : String)
deriving DecidableEq, Repr

/-- Result of running a poller function: the events it emitted, the
store state after the operations that completed (mutations before a
failure persist, as each is its own transaction), and the outcome. -/
structure Res (α : Type) where
  events : List Event
  db : DbState
  out : Outcome α
deriving Repr

/-- Run a per-item body over a snapshotted list (the source's `for`
loops over vault lists read once from the store), threading the store
state and an accumulator, stopping at the first error or panic. -/
def foldSteps {β α : Type} (step : DbState → α → β → Res α) :
    DbState → α → List β → Res α
  | db, a, [] => ⟨[], db, Outcome.ok a⟩
  | db, a, x :: rest =>
    match step db a x with
    | ⟨evs, db1, Outcome.ok a'⟩ =>
      match foldSteps step db1 a' rest with
      | ⟨evs2, db2, out2⟩ => ⟨evs ++ evs2, db2, out2⟩
    | ⟨evs, db1, Outcome.err e⟩ => ⟨evs, db1, Outcome.err e⟩
    | ⟨evs, db1, Outcome.panicked m⟩ => ⟨evs, db1, Outcome.panicked m⟩

/-- Embedding of the body of the `for db_vault in canceling_vaults`
loop of `poller.rs` `manage_cancel_attempts` (lines 107 to 226).  The
checked i32 arithmetic of the source (`checked_add(1)` on the tip
height, `checked_sub`, `try_into` on the confirmation count and the CSV
value) is modelled by the explicit range tests, each panicking with the
source's `expect` message. -/
def manageCancelVault (tx : TxEnv) (chain : ChainEnv) (se : StoreEnv)
    (tip : ChainTip) (db : DbState) (_a : Unit) (v : DbVault) : Res Unit :=
  match tx.unvault_tx v with
  | none => ⟨[Event.logError "derive_unvault"], db, Outcome.ok ()⟩
  | some utx =>
    match v.revoc_height with
    | some conf_height =>
      -- checked_add(1).expect / checked_sub(conf_height).expect
      if tip.height = I32_MAX then
        ⟨[], db, Outcome.panicked "A block height>2147483647?"⟩
      else if tip.height + 1 - conf_height < I32_MIN ∨
          tip.height + 1 - conf_height > I32_MAX then
        ⟨[], db, Outcome.panicked "Impossible, the confirmation height is always <= tip"⟩
      else if tip.height + 1 - conf_height > REORG_WATCH_LIMIT then
        if se.fails "del_vault" then ⟨[], db, Outcome.err (PollerError.Database "del_vault")⟩
        else ⟨[Event.logInfo "forget_vault"], db_del_vault db v.id, Outcome.ok ()⟩
      else ⟨[], db, Outcome.ok ()⟩
    | none =>
      match chain.utxoinfo utx.cancel_outpoint with
      | some ui =>
        if tip.height = I32_MAX then
          ⟨[], db, Outcome.panicked "A block height>2147483647?"⟩
        else if (ui.confirmations : Int) > I32_MAX then
          ⟨[], db, Outcome.panicked "A block height>2147483648?"⟩
        else if tip.height + 1 - (ui.confirmations : Int) < I32_MIN ∨
            tip.height + 1 - (ui.confirmations : Int) > I32_MAX then
          ⟨[], db, Outcome.panicked "Impossible, we just checked the tip is in sync"⟩
        else if se.fails "revoc_confirmed" then
          ⟨[], db, Outcome.err (PollerError.Database "revoc_confirmed")⟩
        else
          ⟨[Event.logDebug "cancel_confirmed"],
            db_revoc_confirmed db v.id (tip.height + 1 - (ui.confirmations : Int)),
            Outcome.ok ()⟩
      | none =>
        match chain.utxoinfo utx.unvault_outpoint with
        | none =>
          if tx.csv_value > I32_MAX then
            ⟨[], db, Outcome.panicked "CSV value does not fit in i32?"⟩
          else
            match v.unvault_height with
            | none => ⟨[], db, Outcome.panicked "No unvault_height for unvaulted vault?"⟩
            | some uh =>
              if se.fails "revoc_confirmed" then
                ⟨[], db, Outcome.err (PollerError.Database "revoc_confirmed")⟩
              else
                -- db_revoc_confirmed runs before the timelock branch; the
                -- source then falls through to the trailing debug line.
                if tip.height < uh + tx.csv_value then
                  ⟨[Event.logDebug "noticed_cancel_confirmed",
                      Event.logDebug "cancel_still_unconfirmed"],
                    db_revoc_confirmed db v.id tip.height, Outcome.ok ()⟩
                else
                  ⟨[Event.logInfo "unvault_spent_cancel_missing",
                      Event.logDebug "cancel_still_unconfirmed"],
                    db_revoc_confirmed db v.id tip.height, Outcome.ok ()⟩
        | some _ => ⟨[Event.logDebug "cancel_still_unconfirmed"], db, Outcome.ok ()⟩

/-- Embedding of `poller.rs` `manage_cancel_attempts`: read the
canceling vaults once, then run the per-vault body over the snapshot. -/
def manage_cancel_attempts (tx : TxEnv) (chain : ChainEnv) (se : StoreEnv)
    (tip : ChainTip) (db : DbState) : Res Unit :=
  if se.fails "canceling_vaults" then
    ⟨[], db, Outcome.err (PollerError.Database "canceling_vaults")⟩
  else foldSteps (manageCancelVault tx chain se tip) db () (db_canceling_vaults db)

/-- Embedding of the `for db_sig in db_cancel_signatures(..)` loop of
`poller.rs` `revault`: every signature is attempted; a rejected one is
logged and not added, an accepted one is added and traced.  Returns the
signatures actually added, in order, along with the log events. -/
def addSigsLoop (tx : TxEnv) : List Sig → List Sig × List Event
  | [] => ([], [])
  | s :: rest =>
    match addSigsLoop tx rest with
    | (added, evs) =>
      if tx.add_sig_ok s then (s :: added, Event.logTrace "added_sig" :: evs)
      else (added, Event.logError "add_sig" :: evs)

/-- Embedding of `poller.rs` `revault` (lines 232 to 291): rebuild the
Cancel transaction, add each stored signature, finalize; a finalization
failure is logged and the function returns `Ok` without broadcasting;
a broadcast failure is logged and also non-fatal. -/
def revault (tx : TxEnv) (se : StoreEnv) (db : DbState) (v : DbVault)
    (utx : UnvaultTxM) : Res Unit :=
  if se.fails "cancel_signatures" then
    ⟨[], db, Outcome.err (PollerError.Database "cancel_signatures")⟩
  else
    match addSigsLoop tx (db_cancel_signatures db v.id) with
    | (added, evs) =>
      if tx.finalize_ok added then
        if tx.broadcast_ok utx.cancel_txid then
          ⟨evs ++ [Event.logTrace "finalized_cancel", Event.broadcast utx.cancel_txid,
              Event.logDebug "broadcasted_cancel"], db, Outcome.ok ()⟩
        else
          ⟨evs ++ [Event.logTrace "finalized_cancel", Event.broadcast utx.cancel_txid,
              Event.logError "broadcast_failed"], db, Outcome.ok ()⟩
      else
        ⟨evs ++ [Event.logError "finalize_failed"], db, Outcome.ok ()⟩

/-- Embedding of `plugins::VaultInfo` as pushed by `check_for_unvault`. -/
structure VaultInfo where
  value : Nat
  deposit_outpoint : Outpoint
  unvault_tx : UnvaultTxM
deriving DecidableEq, Repr

/-- Embedding of `plugins::NewBlockInfo`; the last two lists are
reserved hooks and always empty in the core. -/
structure NewBlockInfo where
  new_attempts : List VaultInfo
  successful_attempts : List Nat
  revaulted_attempts : List Nat
deriving DecidableEq, Repr

/-- Embedding of the body of the `for db_vault in deleg_vaults` loop of
`poller.rs` `check_for_unvault` (lines 305 to 342).  The source's
`try_into().expect` on the confirmation count and the
`assert!(confs > 0 && unvault_height > 0)` are modelled as panics. -/
def checkUnvaultStep (tx : TxEnv) (chain : ChainEnv) (se : StoreEnv)
    (tip : ChainTip) (db : DbState) (attempts : List VaultInfo) (v : DbVault) :
    Res (List VaultInfo) :=
  match tx.unvault_tx v with
  | none => ⟨[Event.logError "derive_unvault"], db, Outcome.ok attempts⟩
  | some utx =>
    match chain.utxoinfo utx.unvault_outpoint with
    | none => ⟨[], db, Outcome.ok attempts⟩
    | some ui =>
      if (ui.confirmations : Int) > I32_MAX then
        ⟨[], db, Outcome.panicked "A number of confs that does not fit in a i32?"⟩
      else if (ui.confirmations : Int) > 0 ∧
          tip.height - ((ui.confirmations : Int) - 1) > 0 then
        if se.fails "should_not_cancel" then
          ⟨[Event.logDebug "confirmed_unvault"], db,
            Outcome.err (PollerError.Database "should_not_cancel")⟩
        else
          ⟨[Event.logDebug "confirmed_unvault"],
            db_should_not_cancel_vault db v.id (tip.height - ((ui.confirmations : Int) - 1)),
            Outcome.ok (attempts ++ [⟨v.amount, v.deposit_outpoint, utx⟩])⟩
      else ⟨[], db, Outcome.panicked "assertion failed"⟩

/-- Embedding of `poller.rs` `check_for_unvault`: read the delegated
vaults once, collect the new unvault attempts, and wrap them in a
`NewBlockInfo` with empty reserved lists. -/
def check_for_unvault (tx : TxEnv) (chain : ChainEnv) (se : StoreEnv)
    (tip : ChainTip) (db : DbState) : Res NewBlockInfo :=
  if se.fails "delegated_vaults" then
    ⟨[], db, Outcome.err (PollerError.Database "delegated_vaults")⟩
  else
    match foldSteps (checkUnvaultStep tx chain se tip) db [] (db_delegated_vaults db) with
    | ⟨evs, db1, Outcome.ok attempts⟩ => ⟨evs, db1, Outcome.ok ⟨attempts, [], []⟩⟩
    | ⟨evs, db1, Outcome.err e⟩ => ⟨evs, db1, Outcome.err e⟩
    | ⟨evs, db1, Outcome.panicked m⟩ => ⟨evs, db1, Outcome.panicked m⟩

/-- Embedding of the plugin fold of `poller.rs` `maybe_revault` (lines
362 to 374): each configured plugin's poll result (supplied by the
environment as either outpoints or an error) is concatenated; a plugin
error is logged and ignored, the other plugins still contribute. -/
def pluginPoll (plugins : List (Except String (List Outpoint))) :
    List Outpoint × List Event :=
  plugins.foldl
    (fun acc p =>
      match p with
      | Except.ok res => (acc.1 ++ res, acc.2)
      | Except.error _ => (acc.1, acc.2 ++ [Event.logError "plugin_poll"]))
    ([], [])

/-- Embedding of the body of the `for deposit_outpoint in
outpoints_to_revault` loop of `poller.rs` `maybe_revault` (lines 376 to
410): unknown outpoints and vaults without an `unvault_height` are
logged and skipped; otherwise the vault is marked `ShouldCancel` and
`revault` is run. -/
def maybeRevaultStep (tx : TxEnv) (se : StoreEnv) (db : DbState) (_a : Unit)
    (op : Outpoint) : Res Unit :=
  if se.fails "vault" then ⟨[], db, Outcome.err (PollerError.Database "vault")⟩
  else
    match db_vault_find db op with
    | some v =>
      match v.unvault_height with
      | none => ⟨[Event.logError "revault_non_unvaulted"], db, Outcome.ok ()⟩
      | some uh =>
        match tx.unvault_tx v with
        | none => ⟨[Event.logError "derive_unvault"], db, Outcome.ok ()⟩
        | some utx =>
          if se.fails "should_cancel" then
            ⟨[], db, Outcome.err (PollerError.Database "should_cancel")⟩
          else revault tx se (db_should_cancel_vault db v.id uh) v utx
    | none => ⟨[Event.logError "inexistant_outpoint"], db, Outcome.ok ()⟩

/-- Embedding of `poller.rs` `maybe_revault`: poll the plugins, then
process each returned outpoint in order. -/
def maybe_revault (tx : TxEnv) (se : StoreEnv)
    (plugins : List (Except String (List Outpoint))) (db : DbState) : Res Unit :=
  match foldSteps (maybeRevaultStep tx se) db () (pluginPoll plugins).1 with
  | ⟨evs, db1, out1⟩ => ⟨(pluginPoll plugins).2 ++ evs, db1, out1⟩

/-- Embedding of `poller.rs` `new_block`: Phase A (unvault detection),
then Phase B (plugin consultation and revault), then Phase C (cancel
tracking and expiry); an error or panic in a phase stops the step
there. -/
def new_block (tx : TxEnv) (chain : ChainEnv) (se : StoreEnv)
    (plugins : List (Except String (List Outpoint))) (tip : ChainTip)
    (db : DbState) : Res Unit :=
  match check_for_unvault tx chain se tip db with
  | ⟨evA, dbA, Outcome.ok _⟩ =>
    match maybe_revault tx se plugins dbA with
    | ⟨evB, dbB, Outcome.ok _⟩ =>
      match manage_cancel_attempts tx chain se tip dbB with
      | ⟨evC, dbC, outC⟩ => ⟨evA ++ evB ++ evC, dbC, outC⟩
    | ⟨evB, dbB, Outcome.err e⟩ => ⟨evA ++ evB, dbB, Outcome.err e⟩
    | ⟨evB, dbB, Outcome.panicked m⟩ => ⟨evA ++ evB, dbB, Outcome.panicked m⟩
  | ⟨evA, dbA, Outcome.err e⟩ => ⟨evA, dbA, Outcome.err e⟩
  | ⟨evA, dbA, Outcome.panicked m⟩ => ⟨evA, dbA, Outcome.panicked m⟩

/-- The external inputs of one iteration of the poller loop: the chain
view and transaction environments, the store fault injections, and the
plugin responses for this block. -/
structure TickEnv where
  tx : TxEnv
  chain : ChainEnv
  store : StoreEnv
  plugins : List (Except String (List Outpoint))

/-- Embedding of one iteration of the `loop` of `poller.rs` `main_loop`
(lines 467 to 484): read the instance record and the node tip; if the
node advanced, check the stored hash against the node (panicking on a
mismatch when the stored height is nonzero), run the block-step, then
advance the stored tip; at equal or lower node height, panic if the tip
hash differs from the stored hash; otherwise do nothing. -/
def tick (e : TickEnv) (db : DbState) : Res Unit :=
  if e.store.fails "instance" then
    ⟨[], db, Outcome.err (PollerError.Database "instance")⟩
  else if e.chain.chain_tip.height > db.tip_blockheight then
    if db.tip_blockheight ≠ 0 ∧
        e.chain.block_hash db.tip_blockheight ≠ db.tip_blockhash then
      ⟨[], db, Outcome.panicked "No reorg handling yet"⟩
    else
      match new_block e.tx e.chain e.store e.plugins e.chain.chain_tip db with
      | ⟨evs, dbn, Outcome.ok _⟩ =>
        if e.store.fails "update_tip" then
          ⟨evs, dbn, Outcome.err (PollerError.Database "update_tip")⟩
        else
          ⟨evs, db_update_tip dbn e.chain.chain_tip.height e.chain.chain_tip.hash,
            Outcome.ok ()⟩
      | ⟨evs, dbn, Outcome.err pe⟩ => ⟨evs, dbn, Outcome.err pe⟩
      | ⟨evs, dbn, Outcome.panicked m⟩ => ⟨evs, dbn, Outcome.panicked m⟩
  else if e.chain.chain_tip.hash ≠ db.tip_blockhash then
    ⟨[], db, Outcome.panicked "No reorg handling yet"⟩
  else ⟨[], db, Outcome.ok ()⟩

/-- Final observation of a finite run of the poller loop. -/
inductive LoopOutcome where
  | running (db : DbState)
  | exited (e : PollerError) (db : DbState)
  | halted (msg : String) (db : DbState)
deriving Repr

/-- Embedding of `poller.rs` `main_loop` run against a finite sequence
of per-iteration environments.  A propagated error leaves the `loop`
through the function's `Result` (the source's `?` operator), so no
further iteration runs; a panic halts the process. -/
def main_loop : List TickEnv → DbState → List Event × LoopOutcome
  | [], db => ([], LoopOutcome.running db)
  | e :: rest, db =>
    match tick e db with
    | ⟨evs, db1, Outcome.ok _⟩ =>
      match main_loop rest db1 with
      | (evs2, o) => (evs ++ evs2, o)
    | ⟨evs, db1, Outcome.err pe⟩ => (evs, LoopOutcome.exited pe db1)
    | ⟨evs, db1, Outcome.panicked m⟩ => (evs, LoopOutcome.halted m db1)

/-- Outcome of `main.rs` `parse_args`: either the optional
configuration path, or a usage-message exit. -/
inductive ArgsResult where
  | ok (conf : Option String)
  | usage_exit (code : Nat)
deriving DecidableEq, Repr

/-- Embedding of `main.rs` `parse_args` (lines 19 to 31): a single
argument vector entry (the program name alone) yields the default
path; any length other than 3 prints usage and exits with code 1;
otherwise the third entry is taken as the configuration path. -/
def parse_args (args : List String) : ArgsResult :=
  if args.length == 1 then ArgsResult.ok none
  else if args.length != 3 then ArgsResult.usage_exit 1
  else ArgsResult.ok (some (args.getD 2 ""))

/-- The startup actions of `main.rs` `main`, in program order.  The
constructor `poller_tick` stands for entering the poller's `main_loop`;
`main.rs` declares only the `bitcoind`, `config` and `keys` modules and
never references the poller, so no run of `main_run` emits it. -/
inductive StartupStep where
  | parse_cli
  | sodium_init
  | config_parse
  | logger_setup
  | datadir_create
  | datadir_canonicalize
  | bitcoind_start
  | sync_wait
  | wallet_load
  | noise_key_setup
  | log_noise_key
  | poller_tick
deriving DecidableEq, Repr

/-- Success or failure of each fallible startup collaborator of
`main.rs` `main`. -/
structure MainEnv where
  argv : List String
  sodium_ok : Bool
  config_ok : Bool
  logger_ok : Bool
  datadir_missing : Bool
  datadir_create_ok : Bool
  canonicalize_ok : Bool
  bitcoind_ok : Bool
  wallet_ok : Bool
  noise_ok : Bool
deriving DecidableEq, Repr

/-- How the process ends: `exited c` for `process::exit(c)`, `returned`
for falling off the end of `main`. -/
inductive MainResult where
  | exited (code : Nat)
  | returned
deriving DecidableEq, Repr

/-- All startup collaborators succeed and the argument vector is
accepted. -/
def MainEnv.startupOk (e : MainEnv) : Bool :=
  (match parse_args e.argv with
    | ArgsResult.ok _ => true
    | ArgsResult.usage_exit _ => false) &&
  e.sodium_ok && e.config_ok && e.logger_ok &&
  (!e.datadir_missing || e.datadir_create_ok) &&
  e.canonicalize_ok && e.bitcoind_ok && e.wallet_ok && e.noise_ok

/-- Embedding of `main.rs` `main` (lines 63 to 145): parse the argument
vector, init libsodium, parse the config, set up the logger, create the
data directory if missing and canonicalize it, start the bitcoind
connection, wait for sync, load the watch-only wallet, read or create
the Noise key, log its public part — and return.  Each failure exits
with code 1; the poller is never entered. -/
def main_run (e : MainEnv) : MainResult × List StartupStep :=
  match parse_args e.argv with
  | ArgsResult.usage_exit c => (MainResult.exited c, [StartupStep.parse_cli])
  | ArgsResult.ok _ =>
    if !e.sodium_ok then
      (MainResult.exited 1, [StartupStep.parse_cli, StartupStep.sodium_init])
    else if !e.config_ok then
      (MainResult.exited 1,
        [StartupStep.parse_cli, StartupStep.sodium_init, StartupStep.config_parse])
    else if !e.logger_ok then
      (MainResult.exited 1,
        [StartupStep.parse_cli, StartupStep.sodium_init, StartupStep.config_parse,
          StartupStep.logger_setup])
    else if e.datadir_missing && !e.datadir_create_ok then
      (MainResult.exited 1,
        [StartupStep.parse_cli, StartupStep.sodium_init, StartupStep.config_parse,
          StartupStep.logger_setup, StartupStep.datadir_create])
    else
      let pre := [StartupStep.parse_cli, StartupStep.sodium_init,
        StartupStep.config_parse, StartupStep.logger_setup] ++
        (if e.datadir_missing then [StartupStep.datadir_create] else [])
      if !e.canonicalize_ok then
        (MainResult.exited 1, pre ++ [StartupStep.datadir_canonicalize])
      else if !e.bitcoind_ok then
        (MainResult.exited 1,
          pre ++ [StartupStep.datadir_canonicalize, StartupStep.bitcoind_start])
      else if !e.wallet_ok then
        (MainResult.exited 1,
          pre ++ [StartupStep.datadir_canonicalize, StartupStep.bitcoind_start,
            StartupStep.sync_wait, StartupStep.wallet_load])
      else if !e.noise_ok then
        (MainResult.exited 1,
          pre ++ [StartupStep.datadir_canonicalize, StartupStep.bitcoind_start,
            StartupStep.sync_wait, StartupStep.wallet_load, StartupStep.noise_key_setup])
      else
        (MainResult.returned,
          pre ++ [StartupStep.datadir_canonicalize, StartupStep.bitcoind_start,
            StartupStep.sync_wait, StartupStep.wallet_load, StartupStep.noise_key_setup,
            StartupStep.log_noise_key])

/-- Concrete unvault-transaction fixture for witnesses. -/
def exUtx : UnvaultTxM := ⟨(1, 0), (2, 0), 77⟩

/-- Concrete transaction environment fixture: derivation always
succeeds, every signature is accepted, CSV is 144 blocks. -/
def exTx : TxEnv :=
  ⟨fun _ => some exUtx, fun _ => true, fun _ => true, 144, fun _ => true⟩

/-- Chain view fixture with an empty UTXO set. -/
def exChainNone : ChainEnv := ⟨fun _ => none, ⟨250, 5⟩, fun _ => 0⟩

/-- A vault marked `ShouldCancel`, unvaulted at height 100. -/
def exVaultSC : DbVault :=
  ⟨7, (9, 0), 1000, 3, VaultStatus.ShouldCancel, some 100, none⟩

/-- Store fixture holding the `ShouldCancel` vault. -/
def exDbSC : DbState := ⟨[exVaultSC], [], 0, 0⟩

/-- A delegated vault that has not yet unvaulted. -/
def exVaultDeleg : DbVault :=
  ⟨7, (9, 0), 1000, 3, VaultStatus.Delegated, none, none⟩

/-- Store fixture holding the delegated vault. -/
def exDbDeleg : DbState := ⟨[exVaultDeleg], [], 0, 0⟩

/-- Chain view fixture reporting the unvault output confirmed with a
confirmation count that does not fit in an `i32`. -/
def exChainBigConfs : ChainEnv :=
  ⟨fun _ => some ⟨2147483648, 5⟩, ⟨100, 5⟩, fun _ => 0⟩

/-- Chain view fixture for the reorg scenario: node tip (105, 77) but
the block hash at every height is 22. -/
def exChainReorg : ChainEnv := ⟨fun _ => none, ⟨105, 77⟩, fun _ => 22⟩

/-- Tick environment fixture for the reorg scenario. -/
def exReorgTick : TickEnv := ⟨exTx, exChainReorg, cleanStore, []⟩

/-- Stored instance fixture at (100, 11). -/
def exDbStored : DbState := ⟨[], [], 100, 11⟩

/-- Tick environment whose store fails the canceling-vaults read. -/
def exTickErr : TickEnv :=
  ⟨exTx, ⟨fun _ => none, ⟨1, 9⟩, fun _ => 22⟩, ⟨["canceling_vaults"]⟩, []⟩

/-- The same tick environment with a healthy store. -/
def exTickClean : TickEnv :=
  ⟨exTx, ⟨fun _ => none, ⟨1, 9⟩, fun _ => 22⟩, cleanStore, []⟩

/-- A chain view fixture reporting the cancel output of `exUtx`
confirmed once at tip (102, 5). -/
def exChainCancelConf : ChainEnv :=
  ⟨fun op => if op == (2, 0) then some ⟨1, 5⟩ else none, ⟨102, 5⟩, fun _ => 0⟩

/-- A chain view fixture reporting the unvault output of `exUtx`
confirmed once at tip (100, 5). -/
def exChainUnvaultConf : ChainEnv :=
  ⟨fun op => if op == (1, 0) then some ⟨1, 5⟩ else none, ⟨100, 5⟩, fun _ => 0⟩

/-- A startup environment in which every collaborator succeeds. -/
def exMainAllOk : MainEnv :=
  ⟨["miradord"], true, true, true, false, true, true, true, true, true⟩

/-- A transaction environment whose finalization always fails and which
rejects the signatures of pubkey 2. -/
def exTxNoFinalize : TxEnv :=
  ⟨fun _ => some exUtx, fun s => s.pubkey == 1, fun _ => false, 144, fun _ => true⟩

/-- Store fixture holding the `ShouldCancel` vault and two of its
signatures, one of which `exTxNoFinalize` rejects. -/
def exDbSigs : DbState := ⟨[exVaultSC], [(7, ⟨1, 10⟩), (7, ⟨2, 20⟩)], 0, 0⟩

/-- A vault whose cancel transaction confirmed at height 102. -/
def exVaultRevoc : DbVault :=
  ⟨7, (9, 0), 1000, 3, VaultStatus.RevocConfirmed, some 100, some 102⟩

/-- Store fixture holding the revocation-confirmed vault. -/
def exDbRevoc : DbState := ⟨[exVaultRevoc], [], 0, 0⟩

/-- Two states of the store agree on the stored tip. -/
def sameTip (a b : DbState) : Prop :=
  a.tip_blockheight = b.tip_blockheight ∧ a.tip_blockhash = b.tip_blockhash

theorem cleanStore_fails (t : String) : cleanStore.fails t = false := rfl

theorem db_revoc_confirmed_length (db : DbState) (vid : Nat) (h : Int) :
    (db_revoc_confirmed db vid h).vaults.length = db.vaults.length := by
  simp [db_revoc_confirmed]

theorem foldSteps_events_prop {β α : Type} (step : DbState → α → β → Res α)
    (P : Event → Prop)
    (h : ∀ db a x, ∀ ev ∈ (step db a x).events, P ev) :
    ∀ (l : List β) (db : DbState) (a : α),
      ∀ ev ∈ (foldSteps step db a l).events, P ev := by
  intro l
  induction l with
  | nil => intro db a ev hev; simp [foldSteps] at hev
  | cons x rest ih =>
    intro db a ev hev
    rw [foldSteps] at hev
    rcases hs : step db a x with ⟨evs1, db1, out1⟩
    rw [hs] at hev
    have hstepEv : ∀ ev2 ∈ evs1, P ev2 := by
      intro ev2 h2
      exact h db a x ev2 (by rw [hs]; exact h2)
    cases out1 with
    | ok a' =>
      dsimp only at hev
      rcases hf : foldSteps step db1 a' rest with ⟨evs2, db2, out2⟩
      rw [hf] at hev
      dsimp only at hev
      rcases List.mem_append.mp hev with h1 | h2
      · exact hstepEv ev h1
      · exact ih db1 a' ev (by rw [hf]; exact h2)
    | err e => exact hstepEv ev hev
    | panicked m => exact hstepEv ev hev

theorem foldSteps_sameTip {β α : Type} (step : DbState → α → β → Res α)
    (h : ∀ db a x, sameTip (step db a x).db db) :
    ∀ (l : List β) (db : DbState) (a : α),
      sameTip (foldSteps step db a l).db db := by
  intro l
  induction l with
  | nil => intro db a; exact ⟨rfl, rfl⟩
  | cons x rest ih =>
    intro db a
    rw [foldSteps]
    have hstep := h db a x
    rcases hs : step db a x with ⟨evs1, db1, out1⟩
    rw [hs] at hstep
    cases out1 with
    | ok a' =>
      dsimp only
      have h2 := ih db1 a'
      rcases hf : foldSteps step db1 a' rest with ⟨evs2, db2, out2⟩
      rw [hf] at h2
      exact ⟨h2.1.trans hstep.1, h2.2.trans hstep.2⟩
    | err e => exact hstep
    | panicked m => exact hstep

theorem revault_db (tx : TxEnv) (se : StoreEnv) (db : DbState) (v : DbVault)
    (utx : UnvaultTxM) : (revault tx se db v utx).db = db := by
  unfold revault
  split
  · rfl
  · rcases addSigsLoop tx (db_cancel_signatures db v.id) with ⟨added, evs⟩
    by_cases hf : tx.finalize_ok added <;>
      by_cases hb : tx.broadcast_ok utx.cancel_txid <;>
      simp [hf, hb]

theorem manageCancelVault_sameTip (tx : TxEnv) (chain : ChainEnv) (se : StoreEnv)
    (tip : ChainTip) (db : DbState) (a : Unit) (v : DbVault) :
    sameTip (manageCancelVault tx chain se tip db a v).db db := by
  unfold manageCancelVault
  repeat' split
  all_goals exact ⟨rfl, rfl⟩

theorem checkUnvaultStep_sameTip (tx : TxEnv) (chain : ChainEnv) (se : StoreEnv)
    (tip : ChainTip) (db : DbState) (a : List VaultInfo) (v : DbVault) :
    sameTip (checkUnvaultStep tx chain se tip db a v).db db := by
  unfold checkUnvaultStep
  repeat' split
  all_goals exact ⟨rfl, rfl⟩

theorem maybeRevaultStep_sameTip (tx : TxEnv) (se : StoreEnv) (db : DbState)
    (a : Unit) (op : Outpoint) :
    sameTip (maybeRevaultStep tx se db a op).db db := by
  unfold maybeRevaultStep
  split
  · exact ⟨rfl, rfl⟩
  · cases hfind : db_vault_find db op with
    | none => exact ⟨rfl, rfl⟩
    | some v =>
      dsimp only
      cases huh : v.unvault_height with
      | none => exact ⟨rfl, rfl⟩
      | some uh =>
        dsimp only
        cases hutx : tx.unvault_tx v with
        | none => exact ⟨rfl, rfl⟩
        | some utx =>
          dsimp only
          split
          · exact ⟨rfl, rfl⟩
          · have h1 := revault_db tx se (db_should_cancel_vault db v.id uh) v utx
            constructor
            · show (revault tx se (db_should_cancel_vault db v.id uh) v utx).db.tip_blockheight
                = db.tip_blockheight
              rw [h1]
              rfl
            · show (revault tx se (db_should_cancel_vault db v.id uh) v utx).db.tip_blockhash
                = db.tip_blockhash
              rw [h1]
              rfl

theorem check_for_unvault_sameTip (tx : TxEnv) (chain : ChainEnv) (se : StoreEnv)
    (tip : ChainTip) (db : DbState) :
    sameTip (check_for_unvault tx chain se tip db).db db := by
  unfold check_for_unvault
  split
  · exact ⟨rfl, rfl⟩
  · have hfold := foldSteps_sameTip (checkUnvaultStep tx chain se tip)
      (checkUnvaultStep_sameTip tx chain se tip) (db_delegated_vaults db) db []
    rcases hr : foldSteps (checkUnvaultStep tx chain se tip) db [] (db_delegated_vaults db)
      with ⟨evs, db1, out1⟩
    rw [hr] at hfold
    cases out1 with
    | ok attempts => exact hfold
    | err e => exact hfold
    | panicked m => exact hfold

theorem maybe_revault_sameTip (tx : TxEnv) (se : StoreEnv)
    (plugins : List (Except String (List Outpoint))) (db : DbState) :
    sameTip (maybe_revault tx se plugins db).db db := by
  unfold maybe_revault
  have hfold := foldSteps_sameTip (maybeRevaultStep tx se)
    (maybeRevaultStep_sameTip tx se) (pluginPoll plugins).1 db ()
  rcases hr : foldSteps (maybeRevaultStep tx se) db () (pluginPoll plugins).1
    with ⟨evs, db1, out1⟩
  rw [hr] at hfold
  exact hfold

theorem manage_cancel_attempts_sameTip (tx : TxEnv) (chain : ChainEnv)
    (se : StoreEnv) (tip : ChainTip) (db : DbState) :
    sameTip (manage_cancel_attempts tx chain se tip db).db db := by
  unfold manage_cancel_attempts
  split
  · exact ⟨rfl, rfl⟩
  · exact foldSteps_sameTip (manageCancelVault tx chain se tip)
      (manageCancelVault_sameTip tx chain se tip) (db_canceling_vaults db) db ()

theorem manage_cancel_attempts_sameTip_res (tx : TxEnv) (chain : ChainEnv)
    (se : StoreEnv) (tip : ChainTip) (db : DbState) :
    (manage_cancel_attempts tx chain se tip db).db.tip_blockheight = db.tip_blockheight ∧
    (manage_cancel_attempts tx chain se tip db).db.tip_blockhash = db.tip_blockhash :=
  manage_cancel_attempts_sameTip tx chain se tip db

theorem new_block_sameTip (tx : TxEnv) (chain : ChainEnv) (se : StoreEnv)
    (plugins : List (Except String (List Outpoint))) (tip : ChainTip)
    (db : DbState) : sameTip (new_block tx chain se plugins tip db).db db := by
  unfold new_block
  have hA := check_for_unvault_sameTip tx chain se tip db
  rcases hAeq : check_for_unvault tx chain se tip db with ⟨evA, dbA, outA⟩
  rw [hAeq] at hA
  cases outA with
  | ok i =>
    dsimp only
    have hB := maybe_revault_sameTip tx se plugins dbA
    rcases hBeq : maybe_revault tx se plugins dbA with ⟨evB, dbB, outB⟩
    rw [hBeq] at hB
    cases outB with
    | ok u =>
      dsimp only
      have hC := manage_cancel_attempts_sameTip tx chain se tip dbB
      rcases hCeq : manage_cancel_attempts tx chain se tip dbB with ⟨evC, dbC, outC⟩
      rw [hCeq] at hC
      exact ⟨(hC.1.trans hB.1).trans hA.1, (hC.2.trans hB.2).trans hA.2⟩
    | err e2 => exact ⟨hB.1.trans hA.1, hB.2.trans hA.2⟩
    | panicked m2 => exact ⟨hB.1.trans hA.1, hB.2.trans hA.2⟩
  | err e => exact hA
  | panicked m => exact hA

theorem tick_err_sameTip (e : TickEnv) (db : DbState) (pe : PollerError)
    (h : (tick e db).out = Outcome.err pe) : sameTip (tick e db).db db := by
  have hnb := new_block_sameTip e.tx e.chain e.store e.plugins e.chain.chain_tip db
  simp only [tick] at h ⊢
  cases h1 : e.store.fails "instance" with
  | true => simp only [h1, if_true] at h ⊢; exact ⟨rfl, rfl⟩
  | false =>
    simp only [h1, Bool.false_eq_true, if_false] at h ⊢
    by_cases h2 : e.chain.chain_tip.height > db.tip_blockheight
    · rw [if_pos h2] at h ⊢
      by_cases h3 : db.tip_blockheight ≠ 0 ∧
          e.chain.block_hash db.tip_blockheight ≠ db.tip_blockhash
      · rw [if_pos h3] at h ⊢
        exact ⟨rfl, rfl⟩
      · rw [if_neg h3] at h ⊢
        rcases hout : new_block e.tx e.chain e.store e.plugins e.chain.chain_tip db
          with ⟨evs, dbn, outn⟩
        rw [hout] at h
        rw [hout] at hnb
        cases outn with
        | ok u =>
          dsimp only at h ⊢
          cases h4 : e.store.fails "update_tip" with
          | true => simp only [h4, if_true] at h ⊢; exact hnb
          | false => simp only [h4, Bool.false_eq_true, if_false] at h; simp at h
        | err pe2 => exact hnb
        | panicked m => exact hnb
    · rw [if_neg h2] at h ⊢
      by_cases h5 : e.chain.chain_tip.hash ≠ db.tip_blockhash
      · rw [if_pos h5] at h ⊢; exact ⟨rfl, rfl⟩
      · rw [if_neg h5] at h ⊢; exact ⟨rfl, rfl⟩

/-- C9, counterexample: the claim that only the exact pair
`--conf <path>` is accepted fails on the code.  `parse_args` checks
only the length of the argument vector, never that the second entry is
the literal string `--conf`, so a three-entry argv with a different
flag is accepted and its third entry used as the configuration path. -/
theorem c9_counterexample :
    parse_args ["miradord", "--badflag", "conf.toml"]
      = ArgsResult.ok (some "conf.toml") ∧
    "--badflag" ≠ "--conf" :=
  ⟨rfl, by decide⟩

/-- C9, amended: the program accepts either no extra arguments (falling
back to the default configuration path) or exactly two extra arguments,
using the second of them as the configuration file path without
inspecting the first; any argument vector of any other length is a
usage error that exits with code 1, and there are no subcommands. -/
theorem c9_parse_args_amended (args : List String) :
    (args.length = 1 → parse_args args = ArgsResult.ok none) ∧
    (args.length = 3 → parse_args args = ArgsResult.ok (some (args.getD 2 ""))) ∧
    (args.length ≠ 1 → args.length ≠ 3 → parse_args args = ArgsResult.usage_exit 1) := by
  refine ⟨fun h => ?_, fun h => ?_, fun h1 h3 => ?_⟩
  · simp [parse_args, h]
  · simp [parse_args, h]
  · simp [parse_args, h1, h3]

/-- Witness for the amended C9 theorem at a concrete argv. -/
theorem c9_witness :
    parse_args ["miradord", "--conf", "x.toml"] = ArgsResult.ok (some "x.toml") :=
  (c9_parse_args_amended ["miradord", "--conf", "x.toml"]).2.1 rfl

/-- C2: on a tick, when the node tip height exceeds the stored height,
the stored height is nonzero and the node's block hash at the stored
height differs from the stored hash, the process halts with the reorg
panic, emitting no events (so no block-step ran) and leaving the store
unchanged; likewise when the node tip does not exceed the stored height
and the node tip hash differs from the stored hash. -/
theorem c2_reorg_halt (e : TickEnv) (db : DbState)
    (hinst : e.store.fails "instance" = false) :
    (e.chain.chain_tip.height > db.tip_blockheight →
      db.tip_blockheight ≠ 0 →
      e.chain.block_hash db.tip_blockheight ≠ db.tip_blockhash →
      tick e db = ⟨[], db, Outcome.panicked "No reorg handling yet"⟩) ∧
    (¬ e.chain.chain_tip.height > db.tip_blockheight →
      e.chain.chain_tip.hash ≠ db.tip_blockhash →
      tick e db = ⟨[], db, Outcome.panicked "No reorg handling yet"⟩) := by
  constructor
  · intro h1 h2 h3
    unfold tick
    rw [if_neg (by rw [hinst]; exact Bool.false_ne_true), if_pos h1, if_pos ⟨h2, h3⟩]
  · intro h1 h2
    unfold tick
    rw [if_neg (by rw [hinst]; exact Bool.false_ne_true), if_neg h1, if_pos h2]

/-- Witness for C2 at the spec's reorg scenario: stored tip (100, 11),
node tip at height 105, node hash at height 100 equal to 22. -/
theorem c2_witness :
    tick exReorgTick exDbStored
      = ⟨[], exDbStored, Outcome.panicked "No reorg handling yet"⟩ :=
  (c2_reorg_halt exReorgTick exDbStored rfl).1 (by decide) (by decide) (by decide)

/-- C3: in Phase C of a block-step at `tip`, a canceling vault whose
`revoc_height` is already set is deleted exactly when
`n_confs = tip.height + 1 - revoc_height` strictly exceeds
`REORG_WATCH_LIMIT` (288); when `n_confs ≤ 288` the record is kept
unchanged.  The hypotheses state that the unvault transaction derives
and that the checked i32 arithmetic is in range. -/
theorem c3_expiry (tx : TxEnv) (chain : ChainEnv) (tip : ChainTip) (db : DbState)
    (v : DbVault) (utx : UnvaultTxM) (rh : Int)
    (hderive : tx.unvault_tx v = some utx)
    (hrevoc : v.revoc_height = some rh)
    (htip : tip.height ≠ I32_MAX)
    (hlo : I32_MIN ≤ tip.height + 1 - rh)
    (hhi : tip.height + 1 - rh ≤ I32_MAX) :
    (manageCancelVault tx chain cleanStore tip db () v).out = Outcome.ok () ∧
    (manageCancelVault tx chain cleanStore tip db () v).db =
      (if tip.height + 1 - rh > REORG_WATCH_LIMIT then db_del_vault db v.id else db) ∧
    (tip.height + 1 - rh > REORG_WATCH_LIMIT →
      ∀ w ∈ (manageCancelVault tx chain cleanStore tip db () v).db.vaults, w.id ≠ v.id) ∧
    (tip.height + 1 - rh ≤ REORG_WATCH_LIMIT →
      (manageCancelVault tx chain cleanStore tip db () v).db = db) := by
  have hrange : ¬(tip.height + 1 - rh < I32_MIN ∨ tip.height + 1 - rh > I32_MAX) := by
    push_neg
    exact ⟨hlo, hhi⟩
  have hclean : ¬cleanStore.fails "del_vault" = true := by
    rw [cleanStore_fails]; exact Bool.false_ne_true
  have hmain : manageCancelVault tx chain cleanStore tip db () v =
      (if tip.height + 1 - rh > REORG_WATCH_LIMIT
        then ⟨[Event.logInfo "forget_vault"], db_del_vault db v.id, Outcome.ok ()⟩
        else ⟨[], db, Outcome.ok ()⟩) := by
    unfold manageCancelVault
    rw [hderive]
    dsimp only
    rw [hrevoc]
    dsimp only
    rw [if_neg htip, if_neg hrange, if_neg hclean]
  by_cases hgt : tip.height + 1 - rh > REORG_WATCH_LIMIT
  · rw [hmain, if_pos hgt]
    refine ⟨rfl, by rw [if_pos hgt], fun _ w hw => ?_,
      fun hle => absurd hgt (not_lt.mpr hle)⟩
    simp only [db_del_vault, List.mem_filter] at hw
    simpa using hw.2
  · rw [hmain, if_neg hgt]
    exact ⟨rfl, by rw [if_neg hgt], fun hgt2 => absurd hgt2 hgt, fun _ => rfl⟩

/-- Witness for C3 at the spec's expiry scenario: cancel confirmed at
height 102, tip at 391, so 290 confirmations exceed 288 and the vault
is deleted. -/
theorem c3_witness :
    (manageCancelVault exTx exChainNone cleanStore ⟨391, 5⟩ exDbRevoc () exVaultRevoc).db
      = db_del_vault exDbRevoc exVaultRevoc.id := by
  have h := (c3_expiry exTx exChainNone ⟨391, 5⟩ exDbRevoc exVaultRevoc exUtx 102
    rfl rfl (by decide) (by decide) (by decide)).2.1
  rw [h, if_pos (by decide)]

/-- C5: in Phase C of a block-step at `tip`, a canceling vault with
`revoc_height` unset whose deterministically derived cancel output is
in the UTXO set with `c` confirmations gets
`revoc_height = tip.height + 1 - c` recorded, and the step deletes no
vault record (the store keeps the same number of vaults). -/
theorem c5_cancel_confirmed (tx : TxEnv) (chain : ChainEnv) (tip : ChainTip)
    (db : DbState) (v : DbVault) (utx : UnvaultTxM) (ui : UtxoInfo)
    (hderive : tx.unvault_tx v = some utx)
    (hrevoc : v.revoc_height = none)
    (hcancel : chain.utxoinfo utx.cancel_outpoint = some ui)
    (htip : tip.height ≠ I32_MAX)
    (hconf : (ui.confirmations : Int) ≤ I32_MAX)
    (hlo : I32_MIN ≤ tip.height + 1 - (ui.confirmations : Int))
    (hhi : tip.height + 1 - (ui.confirmations : Int) ≤ I32_MAX) :
    manageCancelVault tx chain cleanStore tip db () v =
      ⟨[Event.logDebug "cancel_confirmed"],
        db_revoc_confirmed db v.id (tip.height + 1 - (ui.confirmations : Int)),
        Outcome.ok ()⟩ ∧
    (db_revoc_confirmed db v.id (tip.height + 1 - (ui.confirmations : Int))).vaults.length
      = db.vaults.length := by
  have hrange : ¬(tip.height + 1 - (ui.confirmations : Int) < I32_MIN ∨
      tip.height + 1 - (ui.confirmations : Int) > I32_MAX) := by
    push_neg
    exact ⟨hlo, hhi⟩
  have hclean : ¬cleanStore.fails "revoc_confirmed" = true := by
    rw [cleanStore_fails]; exact Bool.false_ne_true
  constructor
  · unfold manageCancelVault
    rw [hderive]
    dsimp only
    rw [hrevoc]
    dsimp only
    rw [hcancel]
    dsimp only
    rw [if_neg htip, if_neg (not_lt.mpr hconf), if_neg hrange, if_neg hclean]
  · exact db_revoc_confirmed_length db v.id _

/-- Witness for C5 at the spec's confirmation scenario: tip 102, cancel
output with one confirmation, so `revoc_height = 102`. -/
theorem c5_witness :
    manageCancelVault exTx exChainCancelConf cleanStore ⟨102, 5⟩ exDbSC () exVaultSC
      = ⟨[Event.logDebug "cancel_confirmed"],
          db_revoc_confirmed exDbSC exVaultSC.id 102, Outcome.ok ()⟩ :=
  (c5_cancel_confirmed exTx exChainCancelConf ⟨102, 5⟩ exDbSC exVaultSC exUtx ⟨1, 5⟩
    rfl rfl rfl (by decide) (by decide) (by decide) (by decide)).1

/-- C1: in Phase C of a block-step at `tip`, for a canceling vault with
`revoc_height` unset whose expected cancel output is absent from the
UTXO set: if the unvault output is still present the record is left
unchanged (only a debug line is logged); if the unvault output is also
absent, `revoc_height` is recorded as `tip.height`, both when
`tip.height < unvault_height + csv` and when the timelock has matured,
in which case the ambiguity is additionally logged at info level. -/
theorem c1_unvault_consumed (tx : TxEnv) (chain : ChainEnv) (tip : ChainTip)
    (db : DbState) (v : DbVault) (utx : UnvaultTxM) (uh : Int)
    (hderive : tx.unvault_tx v = some utx)
    (hrevoc : v.revoc_height = none)
    (hcancel : chain.utxoinfo utx.cancel_outpoint = none)
    (hcsv : tx.csv_value ≤ I32_MAX)
    (huh : v.unvault_height = some uh) :
    (∀ ui, chain.utxoinfo utx.unvault_outpoint = some ui →
      manageCancelVault tx chain cleanStore tip db () v =
        ⟨[Event.logDebug "cancel_still_unconfirmed"], db, Outcome.ok ()⟩) ∧
    (chain.utxoinfo utx.unvault_outpoint = none →
      (manageCancelVault tx chain cleanStore tip db () v).db
          = db_revoc_confirmed db v.id tip.height ∧
      (manageCancelVault tx chain cleanStore tip db () v).out = Outcome.ok () ∧
      (¬ tip.height < uh + tx.csv_value →
        Event.logInfo "unvault_spent_cancel_missing"
          ∈ (manageCancelVault tx chain cleanStore tip db () v).events)) := by
  have hclean : ¬cleanStore.fails "revoc_confirmed" = true := by
    rw [cleanStore_fails]; exact Bool.false_ne_true
  constructor
  · intro ui hui
    unfold manageCancelVault
    rw [hderive]
    dsimp only
    rw [hrevoc]
    dsimp only
    rw [hcancel]
    dsimp only
    rw [hui]
  · intro habs
    have hmain : manageCancelVault tx chain cleanStore tip db () v =
        if tip.height < uh + tx.csv_value then
          ⟨[Event.logDebug "noticed_cancel_confirmed",
              Event.logDebug "cancel_still_unconfirmed"],
            db_revoc_confirmed db v.id tip.height, Outcome.ok ()⟩
        else
          ⟨[Event.logInfo "unvault_spent_cancel_missing",
              Event.logDebug "cancel_still_unconfirmed"],
            db_revoc_confirmed db v.id tip.height, Outcome.ok ()⟩ := by
      unfold manageCancelVault
      rw [hderive]
      dsimp only
      rw [hrevoc]
      dsimp only
      rw [hcancel]
      dsimp only
      rw [habs]
      dsimp only
      rw [if_neg (not_lt.mpr hcsv), huh]
      dsimp only
      rw [if_neg hclean]
    by_cases hlt : tip.height < uh + tx.csv_value
    · rw [hmain, if_pos hlt]
      exact ⟨rfl, rfl, fun hnot => absurd hlt hnot⟩
    · rw [hmain, if_neg hlt]
      exact ⟨rfl, rfl, fun _ => by simp⟩

/-- Witness for C1 at the spec's post-timelock ambiguity scenario:
unvault at height 100, CSV 144, tip 250, both outputs absent; the
revocation height 250 is recorded and the ambiguity logged. -/
theorem c1_witness :
    (manageCancelVault exTx exChainNone cleanStore ⟨250, 5⟩ exDbSC () exVaultSC).db
        = db_revoc_confirmed exDbSC exVaultSC.id 250 ∧
    Event.logInfo "unvault_spent_cancel_missing"
      ∈ (manageCancelVault exTx exChainNone cleanStore ⟨250, 5⟩ exDbSC () exVaultSC).events := by
  have h := (c1_unvault_consumed exTx exChainNone ⟨250, 5⟩ exDbSC exVaultSC exUtx 100
    rfl rfl rfl (by decide) rfl).2 rfl
  exact ⟨h.1, h.2.2 (by decide)⟩

theorem checkUnvaultStep_no_broadcast (tx : TxEnv) (chain : ChainEnv) (se : StoreEnv)
    (tip : ChainTip) (db : DbState) (a : List VaultInfo) (v : DbVault) :
    ∀ ev ∈ (checkUnvaultStep tx chain se tip db a v).events,
      ∀ t, ev ≠ Event.broadcast t := by
  intro ev hev t
  unfold checkUnvaultStep at hev
  cases hd : tx.unvault_tx v with
  | none =>
    rw [hd] at hev
    dsimp only at hev
    simp at hev
    subst hev
    simp
  | some utx =>
    rw [hd] at hev
    dsimp only at hev
    cases hu : chain.utxoinfo utx.unvault_outpoint with
    | none =>
      rw [hu] at hev
      dsimp only at hev
      simp at hev
    | some ui =>
      rw [hu] at hev
      dsimp only at hev
      split at hev
      · simp at hev
      · split at hev
        · split at hev
          · simp at hev; subst hev; simp
          · simp at hev; subst hev; simp
        · simp at hev

theorem check_for_unvault_no_broadcast (tx : TxEnv) (chain : ChainEnv) (se : StoreEnv)
    (tip : ChainTip) (db : DbState) :
    ∀ t, Event.broadcast t ∉ (check_for_unvault tx chain se tip db).events := by
  intro t hmem
  unfold check_for_unvault at hmem
  split at hmem
  · simp at hmem
  · have hall := foldSteps_events_prop (checkUnvaultStep tx chain se tip)
      (fun ev => ∀ t2, ev ≠ Event.broadcast t2)
      (fun db2 a2 v2 ev hev => checkUnvaultStep_no_broadcast tx chain se tip db2 a2 v2 ev hev)
      (db_delegated_vaults db) db []
    rcases hr : foldSteps (checkUnvaultStep tx chain se tip) db [] (db_delegated_vaults db)
      with ⟨evs, db1, out1⟩
    rw [hr] at hmem hall
    cases out1 <;> dsimp only at hmem <;> exact hall _ hmem t rfl

/-- C4: in Phase A of a block-step at `tip`, a delegated vault whose
unvault output is in the UTXO set is marked `ShouldNotCancel` at
`unvault_height = tip.height - (confirmations - 1)` (requiring
`confirmations ≥ 1` and a positive height) and a `VaultInfo` is
appended to the new attempts; a delegated vault whose unvault output is
absent is left unchanged; and Phase A broadcasts nothing. -/
theorem c4_unvault_detection (tx : TxEnv) (chain : ChainEnv) (tip : ChainTip)
    (db : DbState) (atts : List VaultInfo) (v : DbVault) (utx : UnvaultTxM)
    (hderive : tx.unvault_tx v = some utx) :
    (∀ ui, chain.utxoinfo utx.unvault_outpoint = some ui →
      (ui.confirmations : Int) ≤ I32_MAX →
      1 ≤ ui.confirmations →
      0 < tip.height - ((ui.confirmations : Int) - 1) →
      checkUnvaultStep tx chain cleanStore tip db atts v =
        ⟨[Event.logDebug "confirmed_unvault"],
          db_should_not_cancel_vault db v.id (tip.height - ((ui.confirmations : Int) - 1)),
          Outcome.ok (atts ++ [⟨v.amount, v.deposit_outpoint, utx⟩])⟩) ∧
    (chain.utxoinfo utx.unvault_outpoint = none →
      checkUnvaultStep tx chain cleanStore tip db atts v = ⟨[], db, Outcome.ok atts⟩) ∧
    (∀ se t, Event.broadcast t ∉ (check_for_unvault tx chain se tip db).events) := by
  have hclean : ¬cleanStore.fails "should_not_cancel" = true := by
    rw [cleanStore_fails]; exact Bool.false_ne_true
  refine ⟨?_, ?_, ?_⟩
  · intro ui hui hconf h1 h2
    have hpos : (0 : Int) < (ui.confirmations : Int) := by exact_mod_cast h1
    unfold checkUnvaultStep
    rw [hderive]
    dsimp only
    rw [hui]
    dsimp only
    rw [if_neg (not_lt.mpr hconf), if_pos ⟨hpos, h2⟩, if_neg hclean]
  · intro habs
    unfold checkUnvaultStep
    rw [hderive]
    dsimp only
    rw [habs]
  · intro se t
    exact check_for_unvault_no_broadcast tx chain se tip db t

/-- Witness for C4 at the spec's benign-unvault scenario: tip 100,
unvault output with one confirmation, so `unvault_height = 100`. -/
theorem c4_witness :
    checkUnvaultStep exTx exChainUnvaultConf cleanStore ⟨100, 5⟩ exDbDeleg [] exVaultDeleg
      = ⟨[Event.logDebug "confirmed_unvault"],
          db_should_not_cancel_vault exDbDeleg exVaultDeleg.id 100,
          Outcome.ok [⟨exVaultDeleg.amount, exVaultDeleg.deposit_outpoint, exUtx⟩]⟩ :=
  (c4_unvault_detection exTx exChainUnvaultConf ⟨100, 5⟩ exDbDeleg [] exVaultDeleg exUtx
    rfl).1 ⟨1, 5⟩ rfl (by decide) (by decide) (by decide)

theorem addSigsLoop_count (tx : TxEnv) (sigs : List Sig) :
    List.count (Event.logError "add_sig") (addSigsLoop tx sigs).2
      = (sigs.filter (fun s => !tx.add_sig_ok s)).length := by
  induction sigs with
  | nil => rfl
  | cons s rest ih =>
    rw [addSigsLoop]
    rcases hp : addSigsLoop tx rest with ⟨added, evs⟩
    rw [hp] at ih
    dsimp only
    by_cases h : tx.add_sig_ok s
    · rw [if_pos h]
      dsimp only
      rw [List.count_cons_of_ne (by simp), ih]
      simp [List.filter_cons, h]
    · have hb : tx.add_sig_ok s = false := Bool.eq_false_iff.mpr h
      rw [if_neg h]
      dsimp only
      rw [List.count_cons_self, ih]
      simp [List.filter_cons, hb]

theorem addSigsLoop_no_broadcast (tx : TxEnv) (sigs : List Sig) :
    ∀ ev ∈ (addSigsLoop tx sigs).2, ∀ t, ev ≠ Event.broadcast t := by
  induction sigs with
  | nil => intro ev hev; simp [addSigsLoop] at hev
  | cons s rest ih =>
    intro ev hev t
    rw [addSigsLoop] at hev
    rcases hp : addSigsLoop tx rest with ⟨added, evs⟩
    rw [hp] at hev ih
    dsimp only at hev
    by_cases h : tx.add_sig_ok s
    · rw [if_pos h] at hev
      dsimp only at hev
      rcases List.mem_cons.mp hev with h1 | h2
      · subst h1; simp
      · exact ih ev h2 t
    · rw [if_neg h] at hev
      dsimp only at hev
      rcases List.mem_cons.mp hev with h1 | h2
      · subst h1; simp
      · exact ih ev h2 t

/-- C6: the `revault` operation always returns success and leaves the
store unchanged; every stored cancel signature whose addition is
rejected is logged (one `add_sig` error line per rejected signature)
and skipped while the remaining signatures are still processed; and
when finalization of the cancel transaction fails, the failure is
logged and no transaction broadcast is attempted for that vault. -/
theorem c6_revault_isolation (tx : TxEnv) (db : DbState) (v : DbVault)
    (utx : UnvaultTxM) :
    (revault tx cleanStore db v utx).out = Outcome.ok () ∧
    (revault tx cleanStore db v utx).db = db ∧
    List.count (Event.logError "add_sig") (revault tx cleanStore db v utx).events
      = ((db_cancel_signatures db v.id).filter (fun s => !tx.add_sig_ok s)).length ∧
    (tx.finalize_ok (addSigsLoop tx (db_cancel_signatures db v.id)).1 = false →
      (∀ t, Event.broadcast t ∉ (revault tx cleanStore db v utx).events) ∧
      Event.logError "finalize_failed" ∈ (revault tx cleanStore db v utx).events) := by
  have hclean : ¬cleanStore.fails "cancel_signatures" = true := by
    rw [cleanStore_fails]; exact Bool.false_ne_true
  have hcnt := addSigsLoop_count tx (db_cancel_signatures db v.id)
  have hnb := addSigsLoop_no_broadcast tx (db_cancel_signatures db v.id)
  unfold revault
  rw [if_neg hclean]
  rcases hp : addSigsLoop tx (db_cancel_signatures db v.id) with ⟨added, evs⟩
  rw [hp] at hcnt hnb
  dsimp only
  by_cases hf : tx.finalize_ok added
  · rw [if_pos hf]
    by_cases hb : tx.broadcast_ok utx.cancel_txid
    · rw [if_pos hb]
      refine ⟨rfl, rfl, ?_, ?_⟩
      · rw [List.count_append, hcnt, List.count_cons_of_ne (by simp),
          List.count_cons_of_ne (by simp), List.count_cons_of_ne (by simp),
          List.count_nil, Nat.add_zero]
      · intro hffalse
        rw [hf] at hffalse
        simp at hffalse
    · rw [if_neg hb]
      refine ⟨rfl, rfl, ?_, ?_⟩
      · rw [List.count_append, hcnt, List.count_cons_of_ne (by simp),
          List.count_cons_of_ne (by simp), List.count_cons_of_ne (by simp),
          List.count_nil, Nat.add_zero]
      · intro hffalse
        rw [hf] at hffalse
        simp at hffalse
  · rw [if_neg hf]
    refine ⟨rfl, rfl, ?_, fun _ => ⟨?_, ?_⟩⟩
    · rw [List.count_append, hcnt, List.count_cons_of_ne (by simp),
        List.count_nil, Nat.add_zero]
    · intro t hmem
      rcases List.mem_append.mp hmem with h1 | h2
      · exact hnb _ h1 t rfl
      · simp at h2
    · simp

/-- Witness for C6: an environment that rejects the second stored
signature and fails finalization; the operation still returns success
and logs the finalization failure. -/
theorem c6_witness :
    (revault exTxNoFinalize cleanStore exDbSigs exVaultSC exUtx).out = Outcome.ok () ∧
    Event.logError "finalize_failed"
      ∈ (revault exTxNoFinalize cleanStore exDbSigs exVaultSC exUtx).events := by
  have h := c6_revault_isolation exTxNoFinalize exDbSigs exVaultSC exUtx
  exact ⟨h.1, (h.2.2.2 (by decide)).2⟩

/-- C7, counterexample: the claim that arithmetic out of range is
logged and the affected vault skipped without crashing fails on the
code.  In `check_for_unvault`, a confirmation count that does not fit
in an `i32` hits `try_into().expect(..)`, which panics (a process
crash), with nothing logged and no vault skipped: on a delegated vault
whose unvault output reports 2147483648 confirmations, the Phase A
step panics. -/
theorem c7_counterexample :
    (checkUnvaultStep exTx exChainBigConfs cleanStore ⟨100, 5⟩ exDbDeleg [] exVaultDeleg).out
      = Outcome.panicked "A number of confs that does not fit in a i32?" := by
  decide

/-- C7, amended: a plugin naming a vault that has no `unvault_height`
and a plugin returning an outpoint matching no stored vault are each
logged and the affected vault skipped without crashing; but arithmetic
out of range (a confirmation count not fitting in an `i32`) is a panic
and therefore fatal, like a detected reorg, not logged-and-skipped. -/
theorem c7_impossibilities (tx : TxEnv) (chain : ChainEnv) (tip : ChainTip) :
    (∀ db op v, db_vault_find db op = some v → v.unvault_height = none →
      maybeRevaultStep tx cleanStore db () op =
        ⟨[Event.logError "revault_non_unvaulted"], db, Outcome.ok ()⟩) ∧
    (∀ db op, db_vault_find db op = none →
      maybeRevaultStep tx cleanStore db () op =
        ⟨[Event.logError "inexistant_outpoint"], db, Outcome.ok ()⟩) ∧
    (∀ db atts v ui utx, tx.unvault_tx v = some utx →
      chain.utxoinfo utx.unvault_outpoint = some ui →
      (ui.confirmations : Int) > I32_MAX →
      (checkUnvaultStep tx chain cleanStore tip db atts v).out =
        Outcome.panicked "A number of confs that does not fit in a i32?") := by
  have hclean : ¬cleanStore.fails "vault" = true := by
    rw [cleanStore_fails]; exact Bool.false_ne_true
  refine ⟨?_, ?_, ?_⟩
  · intro db op v hfind huh
    unfold maybeRevaultStep
    rw [if_neg hclean, hfind]
    dsimp only
    rw [huh]
  · intro db op hfind
    unfold maybeRevaultStep
    rw [if_neg hclean, hfind]
  · intro db atts v ui utx hderive hui hconf
    unfold checkUnvaultStep
    rw [hderive]
    dsimp only
    rw [hui]
    dsimp only
    rw [if_pos hconf]

/-- Witness for the amended C7 theorem: a plugin outpoint resolving to
a vault with no `unvault_height` is logged and skipped. -/
theorem c7_witness :
    maybeRevaultStep exTx cleanStore exDbDeleg () (9, 0)
      = ⟨[Event.logError "revault_non_unvaulted"], exDbDeleg, Outcome.ok ()⟩ :=
  (c7_impossibilities exTx exChainBigConfs ⟨100, 5⟩).1 exDbDeleg (9, 0) exVaultDeleg rfl rfl

/-- C8, counterexample: the claim that after a store error during a
block-step the next tick of the running loop retries the same block
fails on the code.  A `DatabaseError` propagates through `?` out of the
`loop` in `main_loop`, so the loop terminates with the error instead of
retrying: with a first tick whose canceling-vaults read fails and a
second, healthy tick available, the loop exits at the first tick (the
second conjunct shows the healthy tick alone would have processed the
block and advanced the stored tip to (1, 9)). -/
theorem c8_counterexample :
    main_loop [exTickErr, exTickClean] ⟨[], [], 0, 0⟩
      = ([], LoopOutcome.exited (PollerError.Database "canceling_vaults") ⟨[], [], 0, 0⟩) ∧
    main_loop [exTickClean] ⟨[], [], 0, 0⟩
      = ([], LoopOutcome.running ⟨[], [], 1, 9⟩) := by
  constructor <;> rfl

/-- C8, amended: when a vault-store error occurs during a tick, the
tick aborts with the stored tip not yet advanced, and the error
propagates out of `main_loop`, terminating the loop: no later tick
runs. -/
theorem c8_error_aborts (e : TickEnv) (rest : List TickEnv) (db : DbState)
    (pe : PollerError) (h : (tick e db).out = Outcome.err pe) :
    main_loop (e :: rest) db
      = ((tick e db).events, LoopOutcome.exited pe (tick e db).db) ∧
    (tick e db).db.tip_blockheight = db.tip_blockheight ∧
    (tick e db).db.tip_blockhash = db.tip_blockhash := by
  have hst := tick_err_sameTip e db pe h
  refine ⟨?_, hst.1, hst.2⟩
  rw [main_loop]
  rcases ht : tick e db with ⟨evs, db1, out1⟩
  rw [ht] at h
  dsimp only at h
  subst h
  rfl

/-- Witness for the amended C8 theorem at the concrete failing tick. -/
theorem c8_witness :
    main_loop [exTickErr] ⟨[], [], 0, 0⟩
      = ([], LoopOutcome.exited (PollerError.Database "canceling_vaults") ⟨[], [], 0, 0⟩) :=
  (c8_error_aborts exTickErr [] ⟨[], [], 0, 0⟩
    (PollerError.Database "canceling_vaults") rfl).1

/-- C10: no execution of the program entry point ever reaches the
poller: `main.rs` declares only the `bitcoind`, `config` and `keys`
modules and `main` never references `poller::main_loop`, so the
startup trace of every run is free of the poller step; and after a
fully successful startup the process simply returns from `main`. -/
theorem c10_main_never_polls (e : MainEnv) :
    StartupStep.poller_tick ∉ (main_run e).2 ∧
    (e.startupOk = true → (main_run e).1 = MainResult.returned) := by
  obtain ⟨argv, so, co, lo, dm, dc, ca, bo, wo, no⟩ := e
  unfold main_run MainEnv.startupOk
  cases hp : parse_args argv <;>
    cases so <;> cases co <;> cases lo <;> cases dm <;> cases dc <;>
      cases ca <;> cases bo <;> cases wo <;> cases no <;>
    simp

/-- Witness for C10 at a startup environment in which every
collaborator succeeds. -/
theorem c10_witness :
    (main_run exMainAllOk).1 = MainResult.returned ∧
    StartupStep.poller_tick ∉ (main_run exMainAllOk).2 :=
  ⟨(c10_main_never_polls exMainAllOk).2 (by decide),
    (c10_main_never_polls exMainAllOk).1⟩

end Miradord
